import Mathlib

/-!
Verification of the metadata-extraction script `generador_auto.py`.

The development shallowly embeds the script in Lean:

* Python strings are modeled as Lean `String` / `List Char`.
* The parsed HTML document (the BeautifulSoup object) is modeled as a
  `Soup` structure holding, in document order, the pieces the script
  queries: the `meta` tags, the first `title` tag, and the `img` tags.
  A tag found by `soup.find` is truthy in Python (bs4 `Tag` objects are
  always truthy), so presence is modeled with `Option`.
* The network is modeled as an oracle `Fetch`: either `requests.get`
  raised, or it produced a response with a status code, a reason phrase
  and a parsed body.
* Exceptions are modeled with `Except PyError`, where `PyError` records
  the Python exception class and its message.
* `urllib.parse.urljoin` is translated from the CPython 3.11 sources
  (`urlsplit`, `urlparse`, `urlunsplit`, `urlunparse`, `urljoin`),
  including the `ValueError` raise paths of `urlsplit`: an unbalanced
  square bracket in the netloc, and an invalid bracketed host, whose
  validation is translated from the textual IPv4/IPv6 grammar of
  `ipaddress.py`.  `urljoin` is accordingly fallible and so is the
  image block of `extract`.  The one remaining raise path, the NFKC
  check of `_checknetloc`, applies to non-ASCII netlocs only and needs
  the Unicode database, so it is not modeled; the theorem that
  characterizes all failures of `extract` carries an all-ASCII
  hypothesis under which that check provably never fires.
-/

namespace Generador

/-! ## Python string primitives -/

/-- Whitespace stripped by Python `str.strip()` with no arguments,
modeled over the ASCII range (space, tab, newline, carriage return,
vertical tab, form feed, and the file separator block). -/
def pyIsSpace (c : Char) : Bool :=
  c = ' ' || c = '\t' || c = '\n' || c = '\r' || c = '\x0b' || c = '\x0c' ||
  c = '\x1c' || c = '\x1d' || c = '\x1e' || c = '\x1f' || c = '\x85'

/-- Python `str.strip()` on a list of characters. -/
def stripL (cs : List Char) : List Char :=
  ((cs.dropWhile pyIsSpace).reverse.dropWhile pyIsSpace).reverse

/-- Python `str.strip()`. -/
def pyStrip (s : String) : String :=
  ⟨stripL s.data⟩

/-- Python truthiness of an optional string: `None` and the empty
string are falsy. -/
def pyFalsy (t : Option String) : Bool :=
  match t with
  | none => true
  | some s => s == ""

/-- The double quote character. -/
def dquote : Char := Char.ofNat 34

/-- The single quote character. -/
def squote : Char := Char.ofNat 39

/-! ## List helpers used by the `urllib.parse` translation -/

/-- Split a list at the first occurrence of `sep` (Python
`s.split(sep, 1)` when `sep` occurs; `none` when it does not). -/
def splitFirst (sep : Char) : List Char → Option (List Char × List Char)
  | [] => none
  | c :: cs =>
    if c = sep then some ([], cs)
    else
      match splitFirst sep cs with
      | some p => some (c :: p.1, p.2)
      | none => none

/-- Python `str.split(sep)` for a one-character separator: splits at
every occurrence, keeping empty pieces; the result is never empty. -/
def splitOnChar (sep : Char) : List Char → List (List Char)
  | [] => [[]]
  | c :: cs =>
    if c = sep then [] :: splitOnChar sep cs
    else
      match splitOnChar sep cs with
      | [] => [[c]]
      | p :: ps => (c :: p) :: ps

/-- Python `sep.join(parts)` for a one-character separator. -/
def joinChar (sep : Char) : List (List Char) → List Char
  | [] => []
  | [p] => p
  | p :: ps => p ++ sep :: joinChar sep ps

/-! ## Translation of `urllib.parse` (CPython 3.11) -/

/-- Characters allowed in a URL scheme (`scheme_chars`). -/
def isSchemeChar (c : Char) : Bool :=
  c.isAlpha || c.isDigit || c = '+' || c = '-' || c = '.'

/-- Membership of `_WHATWG_C0_CONTROL_OR_SPACE`. -/
def isC0OrSpace (c : Char) : Bool :=
  c.toNat ≤ 32

/-- Membership of `_UNSAFE_URL_BYTES_TO_REMOVE` (tab, CR, LF). -/
def isUnsafeUrlByte (c : Char) : Bool :=
  c = '\t' || c = '\r' || c = '\n'

/-- Preprocessing `urlsplit` applies to its `url` argument: strip
leading C0 controls and spaces, then remove tab, CR and LF. -/
def cleanUrl (cs : List Char) : List Char :=
  (cs.dropWhile isC0OrSpace).filter (fun c => !isUnsafeUrlByte c)

/-- Strip `isC0OrSpace` characters from both ends. -/
def stripC0 (cs : List Char) : List Char :=
  ((cs.dropWhile isC0OrSpace).reverse.dropWhile isC0OrSpace).reverse

/-- Preprocessing `urlsplit` applies to its default `scheme` argument:
strip C0 controls and spaces from both ends, then remove tab, CR, LF. -/
def cleanScheme (cs : List Char) : List Char :=
  (stripC0 cs).filter (fun c => !isUnsafeUrlByte c)

/-- Scheme scanner of `urlsplit`: Python locates the first `:` and
accepts `url[:i]` as the scheme when `i > 0`, the first character is an
ASCII letter and every character before the `:` is a scheme character.
Scanning until the first non-scheme character is equivalent because `:`
is not a scheme character. Accumulates the scheme in reverse. -/
def takeSchemeAux (acc : List Char) : List Char → Option (List Char × List Char)
  | [] => none
  | c :: cs =>
    if c = ':' then
      if acc.isEmpty then none else some (acc.reverse, cs)
    else if isSchemeChar c then takeSchemeAux (c :: acc) cs
    else none

/-- Extract `(scheme, rest)` from a URL, or `none` when the URL has no
valid scheme prefix. -/
def takeScheme (cs : List Char) : Option (List Char × List Char) :=
  match cs with
  | [] => none
  | c :: _ => if c.isAlpha then takeSchemeAux [] cs else none

/-- Result of `urlsplit`. -/
structure SplitResult where
  scheme : List Char
  netloc : List Char
  path : List Char
  query : List Char
  fragment : List Char
deriving Repr, DecidableEq

/-- Query step of `urlsplit`: split the remaining URL at the first
question mark. -/
def urlsplitQ (scheme netloc u frag : List Char) : SplitResult :=
  match splitFirst '?' u with
  | some p => ⟨scheme, netloc, p.1, p.2, frag⟩
  | none => ⟨scheme, netloc, u, [], frag⟩

/-- Fragment step of `urlsplit`: split the remaining URL at the first
hash sign (the script always lets `allow_fragments` default to true). -/
def urlsplitF (scheme netloc rest : List Char) : SplitResult :=
  match splitFirst '#' rest with
  | some p => urlsplitQ scheme netloc p.1 p.2
  | none => urlsplitQ scheme netloc rest []

/-- Netloc step of `urlsplit`: when the remainder starts with `//`,
`_splitnetloc` takes characters up to the first of `/`, `?`, `#`. -/
def urlsplitN (scheme rest : List Char) : SplitResult :=
  match rest with
  | '/' :: '/' :: r =>
    let netloc := r.takeWhile (fun c => !(c == '/') && !(c == '?') && !(c == '#'))
    urlsplitF scheme netloc (r.drop netloc.length)
  | _ => urlsplitF scheme [] rest

/-- Translation of `urlsplit(url, scheme)` for `allow_fragments=True`. -/
def urlsplitL (url dflt : List Char) : SplitResult :=
  let u := cleanUrl url
  match takeScheme u with
  | some p => urlsplitN (p.1.map Char.toLower) p.2
  | none => urlsplitN (cleanScheme dflt) u

/-- Result of `urlparse`: `urlsplit` plus the `params` component. -/
structure ParseResult where
  scheme : List Char
  netloc : List Char
  path : List Char
  params : List Char
  query : List Char
  fragment : List Char
deriving Repr, DecidableEq

/-- Schemes of `uses_params`. -/
def usesParams : List String :=
  ["", "ftp", "hdl", "prospero", "http", "imap",
   "https", "shttp", "rtsp", "rtsps", "rtspu", "sip",
   "sips", "mms", "sftp", "tel"]

/-- Schemes of `uses_relative`. -/
def usesRelative : List String :=
  ["", "ftp", "http", "gopher", "nntp", "imap",
   "wais", "file", "https", "shttp", "mms",
   "prospero", "rtsp", "rtsps", "rtspu", "sftp",
   "svn", "svn+ssh", "ws", "wss"]

/-- Schemes of `uses_netloc`. -/
def usesNetloc : List String :=
  ["", "ftp", "http", "gopher", "nntp", "telnet",
   "imap", "wais", "file", "mms", "https", "shttp",
   "snews", "prospero", "rtsp", "rtsps", "rtspu", "rsync",
   "svn", "svn+ssh", "sftp", "nfs", "git", "git+ssh",
   "ws", "wss"]

/-- Membership of a character-list scheme in one of the scheme lists. -/
def memScheme (s : List Char) (l : List String) : Bool :=
  l.any (fun t => t.data == s)

/-- Split a list at the last occurrence of `sep`. -/
def splitLast (sep : Char) (cs : List Char) : Option (List Char × List Char) :=
  match splitFirst sep cs.reverse with
  | some p => some (p.2.reverse, p.1.reverse)
  | none => none

/-- Translation of `_splitparams`: split `path` at the first semicolon
that follows the last slash (or anywhere when there is no slash). -/
def splitParams (path : List Char) : List Char × List Char :=
  match splitLast '/' path with
  | some lp =>
    match splitFirst ';' lp.2 with
    | some p => (lp.1 ++ '/' :: p.1, p.2)
    | none => (path, [])
  | none =>
    match splitFirst ';' path with
    | some p => (p.1, p.2)
    | none => (path, [])

/-- Translation of `urlparse(url, scheme)`. -/
def urlparseL (url dflt : List Char) : ParseResult :=
  let s := urlsplitL url dflt
  if memScheme s.scheme usesParams && s.path.contains ';' then
    let p := splitParams s.path
    ⟨s.scheme, s.netloc, p.1, p.2, s.query, s.fragment⟩
  else
    ⟨s.scheme, s.netloc, s.path, [], s.query, s.fragment⟩

/-- Translation of `urlunsplit` (CPython 3.11 version). -/
def urlunsplitL (scheme netloc path query fragment : List Char) : List Char :=
  let url := path
  let url :=
    if !netloc.isEmpty ||
        (!scheme.isEmpty && memScheme scheme usesNetloc && !(url.take 2 == ['/', '/'])) then
      let url := if !url.isEmpty && !(url.take 1 == ['/']) then '/' :: url else url
      '/' :: '/' :: (netloc ++ url)
    else url
  let url := if !scheme.isEmpty then scheme ++ ':' :: url else url
  let url := if !query.isEmpty then url ++ '?' :: query else url
  let url := if !fragment.isEmpty then url ++ '#' :: fragment else url
  url

/-- Translation of `urlunparse`. -/
def urlunparseL (scheme netloc path params query fragment : List Char) : List Char :=
  let u := if !params.isEmpty then path ++ ';' :: params else path
  urlunsplitL scheme netloc u query fragment

/-- Drop empty segments except in last position (helper for
`filterMiddle`). -/
def filterMiddleTail : List (List Char) → List (List Char)
  | [] => []
  | [l] => [l]
  | s :: rest => if s.isEmpty then filterMiddleTail rest else s :: filterMiddleTail rest

/-- Middle filter of `urljoin`: `segments[1:-1] = filter(None, segments[1:-1])`
keeps the first and last segments and drops empty segments in between. -/
def filterMiddle : List (List Char) → List (List Char)
  | [] => []
  | [a] => [a]
  | a :: rest => a :: filterMiddleTail rest

/-- Dot-segment resolution loop of `urljoin`: `..` pops (ignoring pops
from an empty stack), `.` is skipped, anything else is pushed. -/
def resolveSegs (segs : List (List Char)) : List (List Char) :=
  segs.foldl
    (fun acc seg =>
      if seg = ['.', '.'] then acc.dropLast
      else if seg = ['.'] then acc
      else acc ++ [seg])
    []

/-- Path-merging part of `urljoin` (the code below the two early
returns), producing the resolved path component. -/
def mergePaths (bpath upath : List Char) : List Char :=
  let baseParts := splitOnChar '/' bpath
  let baseParts := if baseParts.getLast? ≠ some [] then baseParts.dropLast else baseParts
  let segments :=
    if upath.take 1 = ['/'] then splitOnChar '/' upath
    else filterMiddle (baseParts ++ splitOnChar '/' upath)
  let resolved := resolveSegs segments
  let resolved :=
    if segments.getLast? = some ['.'] ∨ segments.getLast? = some ['.', '.'] then
      resolved ++ [[]]
    else resolved
  let joined := joinChar '/' resolved
  if joined.isEmpty then ['/'] else joined

/-- Branch of `urljoin` taken once the URL is known to share the base
scheme and that scheme is in `uses_relative`. -/
def urljoinSame (b u : ParseResult) : List Char :=
  if memScheme u.scheme usesNetloc && !u.netloc.isEmpty then
    urlunparseL u.scheme u.netloc u.path u.params u.query u.fragment
  else
    let netloc := if memScheme u.scheme usesNetloc then b.netloc else u.netloc
    if u.path.isEmpty && u.params.isEmpty then
      urlunparseL u.scheme netloc b.path b.params
        (if u.query.isEmpty then b.query else u.query) u.fragment
    else
      urlunparseL u.scheme netloc (mergePaths b.path u.path) u.params u.query u.fragment

/-- Translation of `urljoin(base, url)`. -/
def urljoinL (base url : List Char) : List Char :=
  if base.isEmpty then url
  else if url.isEmpty then base
  else
    let b := urlparseL base []
    let u := urlparseL url b.scheme
    if u.scheme != b.scheme || !memScheme u.scheme usesRelative then url
    else urljoinSame b u

/-- String wrapper for `urljoin`. -/
def urljoin (base url : String) : String :=
  ⟨urljoinL base.data url.data⟩

/-- A raised Python exception: its class name and its message. -/
structure PyError where
  cls : String
  msg : String
deriving Repr, DecidableEq

/-! ## The raise paths of `urlsplit`

While splitting the netloc, `urlsplit` raises `ValueError` when the
netloc contains an unbalanced square bracket, and when a bracketed host
is neither a valid IPvFuture literal nor a valid IPv6 literal (a valid
IPv4 literal in brackets is also rejected).  The bracketed host is
validated with `ipaddress.ip_address`; its textual IPv4/IPv6 grammar is
translated below from CPython 3.11 `ipaddress.py` as validity
predicates (the numeric values are irrelevant to raising).  The one
remaining raise path, `_checknetloc`, applies NFKC normalization to
non-ASCII netlocs only - `if not netloc or netloc.isascii(): return` -
and NFKC needs the Unicode database, so it is not modeled: the theorem
that characterizes all failures of `extract` therefore carries an
all-ASCII hypothesis on the page URL and the first image source, under
which every character of every netloc is ASCII and `_checknetloc`
provably never raises in CPython. -/

/-- The characters of `_HEX_DIGITS` in `ipaddress.py`. -/
def isHexDigit (c : Char) : Bool :=
  "0123456789ABCDEFabcdef".data.contains c

/-- Value of an all-digit decimal string (digits validated by the
caller). -/
def decVal (cs : List Char) : Nat :=
  cs.foldl (fun n c => 10 * n + (c.toNat - 48)) 0

/-- Translation of `_BaseV4._parse_octet` as a validity predicate: a
nonempty all-ASCII-digit string of at most three characters, with no
leading zero, of value at most 255. -/
def isValidOctet (o : List Char) : Bool :=
  !o.isEmpty && o.all Char.isDigit && decide (o.length ≤ 3) &&
    (o == ['0'] || o.head? != some '0') && decide (decVal o ≤ 255)

/-- Translation of `IPv4Address` on a string: a slash is rejected by
the constructor, then `_BaseV4._ip_int_from_string` requires a nonempty
string of exactly four valid dot-separated octets. -/
def isValidIPv4 (cs : List Char) : Bool :=
  !cs.contains '/' && !cs.isEmpty &&
    (let octs := splitOnChar '.' cs
     octs.length == 4 && octs.all isValidOctet)

/-- Translation of `_BaseV6._parse_hextet` as a validity predicate:
one to four hexadecimal digits. -/
def isValidHextet (h : List Char) : Bool :=
  h.all isHexDigit && decide (h.length ≤ 4) && !h.isEmpty

/-- Indices of the empty parts strictly between the endpoints of a
`:`-split IPv6 address - the candidate positions of the one `::` run
(`skip_index` in `_BaseV6._ip_int_from_string`). -/
def innerEmpties (parts : List (List Char)) : List Nat :=
  ((parts.drop 1).dropLast).enum.filterMap
    (fun p => if p.2.isEmpty then some (p.1 + 1) else none)

/-- Group structure of `_BaseV6._ip_int_from_string` after the optional
IPv4 suffix has been replaced by two hexadecimal groups: without `::`
exactly eight nonempty valid hextets; with one `::` at index `i`, an
empty endpoint is permitted only adjacent to the `::`, the groups
actually parsed are the first `parts_hi` and last `parts_lo`, and at
least one group must be skipped. -/
def v6Groups (parts : List (List Char)) : Bool :=
  decide (parts.length ≤ 9) &&
  match innerEmpties parts with
  | [] =>
    parts.length == 8 && !(parts.head?.getD ['x']).isEmpty &&
    !(parts.getLast?.getD ['x']).isEmpty && parts.all isValidHextet
  | [i] =>
    let n := parts.length
    let headEmpty := (parts.head?.getD ['x']).isEmpty
    let lastEmpty := (parts.getLast?.getD ['x']).isEmpty
    let hi := if headEmpty then i - 1 else i
    let lo := if lastEmpty then n - i - 2 else n - i - 1
    (!headEmpty || i == 1) && (!lastEmpty || i == n - 2) &&
    decide (hi + lo ≤ 7) &&
    (parts.take hi).all isValidHextet &&
    (parts.drop (n - lo)).all isValidHextet
  | _ => false

/-- Translation of `_BaseV6._ip_int_from_string` as a validity
predicate: nonempty, at least three `:`-separated parts, a dotted last
part converted through the IPv4 grammar, then the group structure. -/
def isValidIPv6Addr (cs : List Char) : Bool :=
  !cs.isEmpty &&
    (let parts0 := splitOnChar ':' cs
     decide (3 ≤ parts0.length) &&
     (let lastp := parts0.getLast?.getD []
      if lastp.contains '.' then
        isValidIPv4 lastp && v6Groups (parts0.dropLast ++ [['0'], ['0']])
      else v6Groups parts0))

/-- Translation of `IPv6Address` on a string: a slash is rejected
before the scope split, `_split_scope_id` permits one `%` followed by a
nonempty scope with no further `%`, and the address part must satisfy
the IPv6 grammar. -/
def isValidIPv6 (cs : List Char) : Bool :=
  !cs.contains '/' &&
    (match splitFirst '%' cs with
     | none => isValidIPv6Addr cs
     | some p => !p.2.isEmpty && !p.2.contains '%' && isValidIPv6Addr p.1)

/-- Translation of the IPvFuture regular expression
`\Av[a-fA-F0-9]+\..+\Z` of `_check_bracketed_host` (the caller has
already checked the leading `v`): because a dot is not a hexadecimal
digit, the regular expression matches exactly when the text before the
first dot after the `v` is one or more hexadecimal digits and something
nonempty follows the dot. -/
def isIPvFuture (hostname : List Char) : Bool :=
  match splitFirst '.' (hostname.drop 1) with
  | some p => !p.1.isEmpty && p.1.all isHexDigit && !p.2.isEmpty
  | none => false

/-- Message of the generic `ip_address` failure; `repr` is modeled for
strings without quote characters or escapes. -/
def ipErrorMsg (hostname : List Char) : String :=
  ⟨squote :: (hostname ++ squote :: " does not appear to be an IPv4 or IPv6 address".data)⟩

/-- Translation of `_check_bracketed_host`: `none` when the bracketed
host is acceptable, otherwise the raised `ValueError`. -/
def checkBracketedHost (hostname : List Char) : Option PyError :=
  if hostname.head? == some 'v' then
    if isIPvFuture hostname then none
    else some ⟨"ValueError", "IPvFuture address is invalid"⟩
  else if isValidIPv4 hostname then
    some ⟨"ValueError", "An IPv4 address cannot be in brackets"⟩
  else if isValidIPv6 hostname then none
  else some ⟨"ValueError", ipErrorMsg hostname⟩

/-- The bracketed host of a netloc:
`netloc.partition('[')[2].partition(']')[0]`. -/
def bracketedHost (netloc : List Char) : List Char :=
  match splitFirst '[' netloc with
  | some p =>
    match splitFirst ']' p.2 with
    | some q => q.1
    | none => p.2
  | none => []

/-- The `ValueError` raised by `urlsplit(url, ...)`, when there is one:
an unbalanced bracket in the netloc, or an invalid bracketed host.  The
netloc does not depend on the default scheme argument. -/
def urlsplitRaise (url : List Char) : Option PyError :=
  let netloc := (urlsplitL url []).netloc
  if (netloc.contains '[' && !netloc.contains ']') ||
      (netloc.contains ']' && !netloc.contains '[') then
    some ⟨"ValueError", "Invalid IPv6 URL"⟩
  else if netloc.contains '[' && netloc.contains ']' then
    checkBracketedHost (bracketedHost netloc)
  else none

/-- The `ValueError` raised by `urljoin(base, url)`, when there is one:
after the two early returns on an empty argument, the base is parsed
first and then the url. -/
def urljoinRaise (base url : List Char) : Option PyError :=
  if base.isEmpty then none
  else if url.isEmpty then none
  else
    match urlsplitRaise base with
    | some e => some e
    | none => urlsplitRaise url

/-- Fallible `urljoin` on strings: either the `ValueError` of one of
the two `urlparse` calls, or the joined URL. -/
def urljoinE (base url : String) : Except PyError String :=
  match urljoinRaise base.data url.data with
  | some e => .error e
  | none => .ok (urljoin base url)

/-- An all-ASCII string; on such netlocs the unmodeled `_checknetloc`
provably returns without raising. -/
def asciiStr (s : String) : Bool :=
  s.data.all (fun c => decide (c.toNat < 128))

/-! ## Data model of the parsed HTML document

The script queries the BeautifulSoup object only through
`soup.find("meta", property=...)`, `soup.find("meta", attrs={"name": ...})`,
`soup.title` (the first `title` tag) and `soup.find("img")` (the first
`img` tag).  `Soup` therefore records, in document order, the `meta`
tags with their `property`, `name` and `content` attributes, the first
`title` tag with its bs4 `.string` value, and the `img` tags with their
`src` attribute.  An attribute that is absent on the tag is `none`. -/

/-- One `meta` element: its `property`, `name` and `content` attributes. -/
structure MetaTag where
  prop : Option String
  nameAttr : Option String
  content : Option String
deriving Repr, DecidableEq

/-- The first `title` element; `str` models bs4 `.string`, which is
`None` when the tag does not contain exactly one text node. -/
structure TitleTag where
  str : Option String
deriving Repr, DecidableEq

/-- One `img` element with its `src` attribute. -/
structure ImgTag where
  src : Option String
deriving Repr, DecidableEq

/-- The parsed document. -/
structure Soup where
  metas : List MetaTag
  titleTag : Option TitleTag
  imgs : List ImgTag
deriving Repr, DecidableEq

/-- Translation of `soup.find("meta", property=p)`: the first `meta`
tag whose `property` attribute equals `p`. -/
def findMetaProp (soup : Soup) (p : String) : Option MetaTag :=
  soup.metas.find? (fun m => m.prop == some p)

/-- Translation of `soup.find("meta", attrs={"name": n})`: the first
`meta` tag whose `name` attribute equals `n`. -/
def findMetaName (soup : Soup) (n : String) : Option MetaTag :=
  soup.metas.find? (fun m => m.nameAttr == some n)

/-! ## The `MetadataExtractor.extract` operation -/

/-- Outcome of `requests.get(self.url, headers=..., timeout=10)`:
either the call raised (connection error, timeout, ...) or it returned
a response whose body BeautifulSoup then parses into a `Soup`
(the bs4 parser itself does not raise). -/
structure HttpResponse where
  status : Nat
  reason : String
  body : Soup
deriving Repr, DecidableEq

/-- The network oracle for one `extract` call. -/
inductive Fetch
  | raised (cls msg : String)
  | resp (r : HttpResponse)
deriving Repr, DecidableEq

/-- Translation of `Response.raise_for_status` from the `requests`
library: an `HTTPError` is raised exactly for status codes 400-599,
with a client-error or server-error message. -/
def raiseForStatus (status : Nat) (reason url : String) : Option String :=
  if 400 ≤ status ∧ status < 500 then
    some (toString status ++ " Client Error: " ++ reason ++ " for url: " ++ url)
  else if 500 ≤ status ∧ status < 600 then
    some (toString status ++ " Server Error: " ++ reason ++ " for url: " ++ url)
  else none

/-- Title block of `extract`.  Mirrors: find the `og:title` meta and
strip its `content` (defaulting to the empty string); if the result is
falsy and `soup.title` exists, take `soup.title.string.strip()`, which
raises `AttributeError` when `.string` is `None`; if still falsy, use
the default title. -/
def resolveTitle (soup : Soup) : Except PyError String :=
  let t1 : Option String :=
    match findMetaProp soup "og:title" with
    | some og => some (pyStrip (og.content.getD ""))
    | none => none
  if pyFalsy t1 then
    match soup.titleTag with
    | some t =>
      match t.str with
      | some s =>
        if pyStrip s = "" then .ok "Sin título" else .ok (pyStrip s)
      | none =>
        .error ⟨"AttributeError", "'NoneType' object has no attribute 'strip'"⟩
    | none => .ok "Sin título"
  else .ok (t1.getD "")

/-- Description block of `extract`: `og:description` content stripped;
if falsy, the `name="description"` meta content stripped; if still
falsy, the default description. -/
def resolveDesc (soup : Soup) : String :=
  let d1 : Option String :=
    match findMetaProp soup "og:description" with
    | some og => some (pyStrip (og.content.getD ""))
    | none => none
  let d2 : Option String :=
    if pyFalsy d1 then
      match findMetaName soup "description" with
      | some m => some (pyStrip (m.content.getD ""))
      | none => d1
    else d1
  if pyFalsy d2 then "Sin descripción" else d2.getD ""

/-- Image block of `extract`: `og:image` content stripped; if falsy and
the first `img` tag has a truthy `src`, join that `src` against the
page URL with `urljoin`, which can raise; otherwise the empty string. -/
def resolveImg (url : String) (soup : Soup) : Except PyError String :=
  let i1 : String :=
    match findMetaProp soup "og:image" with
    | some og => pyStrip (og.content.getD "")
    | none => ""
  if i1 = "" then
    match soup.imgs.head? with
    | some im =>
      match im.src with
      | some s => if s = "" then .ok "" else urljoinE url s
      | none => .ok ""
    | none => .ok ""
  else .ok i1

/-- The triple returned by a successful `extract` call (the
`MetadataResult` of the specification). -/
structure MetadataResult where
  title : String
  desc : String
  img : String
deriving Repr, DecidableEq

/-- Body of the `try` block of `extract`: fetch, check the status,
then resolve the three fields. -/
def extractRaw (url : String) (fetch : Fetch) : Except PyError MetadataResult :=
  match fetch with
  | .raised cls msg => .error ⟨cls, msg⟩
  | .resp r =>
    match raiseForStatus r.status r.reason url with
    | some m => .error ⟨"HTTPError", m⟩
    | none =>
      match resolveTitle r.body with
      | .error e => .error e
      | .ok t =>
        match resolveImg url r.body with
        | .error e => .error e
        | .ok i => .ok ⟨t, resolveDesc r.body, i⟩

/-- Translation of `MetadataExtractor.extract`: any exception raised in
the `try` block is caught and re-raised as a bare `Exception` whose
message wraps the original message. -/
def extract (url : String) (fetch : Fetch) : Except PyError MetadataResult :=
  match extractRaw url fetch with
  | .ok r => .ok r
  | .error e => .error ⟨"Exception", "Error extrayendo metadata: " ++ e.msg⟩

/-! ## The `generate_html` operation -/

/-- Python `s.replace(c, rep)` for a one-character pattern: every
occurrence of `c` is replaced by `rep`. -/
def replaceAllChar (c : Char) (rep : List Char) : List Char → List Char
  | [] => []
  | x :: xs => (if x = c then rep else [x]) ++ replaceAllChar c rep xs

/-- The two replace calls at the top of `generate_html`:
`title.replace(DQUOTE, "&quot;").replace(SQUOTE, "&#39;")`. -/
def escapeQuotes (s : String) : String :=
  ⟨replaceAllChar squote "&#39;".data (replaceAllChar dquote "&quot;".data s.data)⟩

/-- The f-string template of `generate_html`, after the `title` and
`desc` arguments have been escaped. -/
def htmlCore (visibleUrl redirectUrl title desc img : String) : String :=
  "<!DOCTYPE html>\n<html lang=\"es\">\n<head>\n    <meta charset=\"UTF-8\">\n    <meta name=\"viewport\" content=\"width=device-width, initial-scale=1.0\">\n    <title>" ++
  title ++
  "</title>\n    <meta name=\"description\" content=\"" ++
  desc ++
  "\">\n    \n    <!-- Open Graph -->\n    <meta property=\"og:type\" content=\"website\">\n    <meta property=\"og:url\" content=\"" ++
  visibleUrl ++
  "\">\n    <meta property=\"og:title\" content=\"" ++
  title ++
  "\">\n    <meta property=\"og:description\" content=\"" ++
  desc ++
  "\">\n    <meta property=\"og:image\" content=\"" ++
  img ++
  "\">\n    <meta property=\"og:image:width\" content=\"1200\">\n    <meta property=\"og:image:height\" content=\"630\">\n    \n    <!-- Twitter Card -->\n    <meta name=\"twitter:card\" content=\"summary_large_image\">\n    <meta name=\"twitter:title\" content=\"" ++
  title ++
  "\">\n    <meta name=\"twitter:description\" content=\"" ++
  desc ++
  "\">\n    <meta name=\"twitter:image\" content=\"" ++
  img ++
  "\">\n    \n    <!-- Redirección -->\n    <meta http-equiv=\"refresh\" content=\"0;url=" ++
  redirectUrl ++
  "\">\n    <script>window.location.href = \"" ++
  redirectUrl ++
  "\";</script>\n    \n    <style>\n        body \x7b\n            margin: 0;\n            padding: 0;\n            font-family: -apple-system, BlinkMacSystemFont, \"Segoe UI\", Roboto, sans-serif;\n            display: flex;\n            align-items: center;\n            justify-content: center;\n            min-height: 100vh;\n            background: linear-gradient(135deg, #667eea 0%, #764ba2 100%);\n            color: white;\n        \x7d\n        .container \x7b\n            text-align: center;\n            padding: 2rem;\n        \x7d\n        .spinner \x7b\n            border: 3px solid rgba(255,255,255,0.3);\n            border-top: 3px solid white;\n            border-radius: 50%;\n            width: 50px;\n            height: 50px;\n            animation: spin 0.8s linear infinite;\n            margin: 0 auto 1.5rem;\n        \x7d\n        @keyframes spin \x7b\n            to \x7b transform: rotate(360deg); \x7d\n        \x7d\n        h1 \x7b\n            font-size: 1.5rem;\n            margin: 0 0 1rem;\n            font-weight: 600;\n        \x7d\n        p \x7b\n            opacity: 0.9;\n            margin: 0.5rem 0;\n        \x7d\n        a \x7b\n            color: white;\n            text-decoration: underline;\n        \x7d\n    </style>\n</head>\n<body>\n    <div class=\"container\">\n        <div class=\"spinner\"></div>\n        <h1>Redirigiendo...</h1>\n        <p>Serás redirigido automáticamente</p>\n        <p><a href=\"" ++
  redirectUrl ++
  "\">O haz clic aquí</a></p>\n    </div>\n</body>\n</html>"

/-- Translation of `generate_html`: escape quotes in the title and the
description, then render the template. -/
def generateHtml (visibleUrl redirectUrl title desc img : String) : String :=
  htmlCore visibleUrl redirectUrl (escapeQuotes title) (escapeQuotes desc) img

/-! ## The `git_push_to_github` operation

The subprocess world is modeled as an oracle `GitWorld` giving the exit
code of each `git` invocation and the captured output of
`git status --porcelain`.  `subprocess.run(..., check=True)` raises
`CalledProcessError` on a nonzero exit code; that is the only caught
exception class (a missing `git` binary would raise an uncaught
`FileNotFoundError`, which `main` rules out by calling `check_git`
first).  The function returns its boolean result together with the list
of strings it printed, one entry per `print` call. -/

/-- Exit codes and captured output of the four `git` commands. -/
structure GitWorld where
  addExit : Nat
  statusExit : Nat
  statusOut : String
  commitExit : Nat
  pushExit : Nat
deriving Repr, DecidableEq

/-- Message of a `CalledProcessError`, as `str(e)` renders it:
`cmdRepr` is the Python list display of the command. -/
def cpeMsg (cmdRepr : String) (code : Nat) : String :=
  "Command " ++ cmdRepr ++ " returned non-zero exit status " ++ toString code ++ "."

/-- The lines printed by the `except subprocess.CalledProcessError`
handler of `git_push_to_github`. -/
def gitErrorPrints (e : String) : List String :=
  ["❌ Error con Git: " ++ e,
   "\n💡 Asegúrate de:",
   "   1. Tener configurado Git: git config --global user.name 'Tu Nombre'",
   "   2. Estar en un repo: git init",
   "   3. Tener un remote: git remote add origin URL"]

/-- Python list display of `['git', 'add', 'index.html']`. -/
def gitAddRepr : String := "'['git', 'add', 'index.html']'"

/-- Python list display of `['git', 'status', '--porcelain']`. -/
def gitStatusRepr : String := "'['git', 'status', '--porcelain']'"

/-- Python list display of the commit command (the commit message is
shown through `repr`, modeled for messages needing no escapes). -/
def gitCommitRepr (msg : String) : String :=
  "'['git', 'commit', '-m', '" ++ msg ++ "']'"

/-- Python list display of `['git', 'push']`. -/
def gitPushRepr : String := "'['git', 'push']'"

/-- Translation of `git_push_to_github`: stage `index.html`; if
`git status --porcelain` prints nothing after stripping, report the
no-changes warning and return `False`; otherwise commit and push,
returning `True`; any `CalledProcessError` prints the error help text
and returns `False`. -/
def gitPushToGithub (commitMessage : String) (w : GitWorld) : Bool × List String :=
  let p0 := ["\n📤 Subiendo a GitHub..."]
  if w.addExit ≠ 0 then
    (false, p0 ++ gitErrorPrints (cpeMsg gitAddRepr w.addExit))
  else if w.statusExit ≠ 0 then
    (false, p0 ++ gitErrorPrints (cpeMsg gitStatusRepr w.statusExit))
  else if pyStrip w.statusOut = "" then
    (false, p0 ++ ["⚠️  No hay cambios para subir"])
  else if w.commitExit ≠ 0 then
    (false, p0 ++ gitErrorPrints (cpeMsg (gitCommitRepr commitMessage) w.commitExit))
  else if w.pushExit ≠ 0 then
    (false, p0 ++ gitErrorPrints (cpeMsg gitPushRepr w.pushExit))
  else
    (true, p0 ++ ["✅ Código subido a GitHub exitosamente",
                  "🚀 Netlify desplegará automáticamente en ~30 segundos"])

/-! ## The `load_config` operation -/

/-- A value produced by `json.load`: either a JSON object, modeled as
its key-value pairs, or some other JSON value. -/
inductive JsonValue
  | obj (entries : List (String × String))
  | nonObj (descr : String)
deriving Repr, DecidableEq

/-- State of the filesystem at `.link_config.json` as `load_config`
observes it: the file is absent (`os.path.exists` is false), opening or
reading it raises, `json.load` raises on its content, or `json.load`
returns a value. -/
inductive ConfigFS
  | absent
  | readError (msg : String)
  | badJson (msg : String)
  | hasJson (v : JsonValue)
deriving Repr, DecidableEq

/-- The `try` block of `load_config`: return the parsed value when the
file exists and parses, fall through to `None` when the file is absent,
and raise when opening or parsing raises. -/
def loadConfigAttempt (fs : ConfigFS) : Except PyError (Option JsonValue) :=
  match fs with
  | .absent => .ok none
  | .readError m => .error ⟨"OSError", m⟩
  | .badJson m => .error ⟨"JSONDecodeError", m⟩
  | .hasJson v => .ok (some v)

/-- Translation of `load_config`: the bare `except: pass` turns any
exception from the `try` block into the `return None` fallthrough. -/
def loadConfig (fs : ConfigFS) : Option JsonValue :=
  match loadConfigAttempt fs with
  | .ok r => r
  | .error _ => none

/-! ## Specification-side definitions

These definitions follow the wording of the specification (ordered
fallback chains with a first-non-empty rule); the theorems below relate
them to the translated code. -/

/-- Stripped content of the first meta tag with the given `property`
attribute, when such a tag exists. -/
def ogVal (soup : Soup) (p : String) : Option String :=
  (findMetaProp soup p).map (fun m => pyStrip (m.content.getD ""))

/-- Stripped content of the first meta tag with the given `name`
attribute, when such a tag exists. -/
def nameVal (soup : Soup) (n : String) : Option String :=
  (findMetaName soup n).map (fun m => pyStrip (m.content.getD ""))

/-- Condition under which the title block raises: the `og:title` tier
produced nothing usable and the document has a `title` tag whose bs4
`.string` is `None`. -/
def titleCrash (soup : Soup) : Bool :=
  pyFalsy (ogVal soup "og:title") &&
    (match soup.titleTag with
     | some t => t.str == none
     | none => false)

/-- The title the extractor produces when it does not raise. -/
def titleValue (soup : Soup) : String :=
  if pyFalsy (ogVal soup "og:title") then
    match soup.titleTag with
    | some t =>
      match t.str with
      | some s => if pyStrip s = "" then "Sin título" else pyStrip s
      | none => "Sin título"
    | none => "Sin título"
  else (ogVal soup "og:title").getD ""

/-- The exception raised by `None.strip()`. -/
def attrStripError : PyError :=
  ⟨"AttributeError", "'NoneType' object has no attribute 'strip'"⟩

/-- Second and third description tiers: the `name="description"` meta
content trimmed if non-empty, otherwise the literal default. -/
def descTierTwo (soup : Soup) : String :=
  match nameVal soup "description" with
  | some s => if s ≠ "" then s else "Sin descripción"
  | none => "Sin descripción"

/-- Description fallback chain in the wording of the specification:
`og:description` content trimmed if non-empty, otherwise the
`name="description"` content trimmed if non-empty, otherwise the
literal default. -/
def descByTiers (soup : Soup) : String :=
  match ogVal soup "og:description" with
  | some s => if s ≠ "" then s else descTierTwo soup
  | none => descTierTwo soup

/-- Second and third image tiers: the first `img` element's non-empty
`src` resolved against the page URL, otherwise the empty string. -/
def imgTierTwo (url : String) (soup : Soup) : String :=
  match soup.imgs.head? with
  | some im =>
    match im.src with
    | some s => if s ≠ "" then urljoin url s else ""
    | none => ""
  | none => ""

/-- Image fallback chain in the wording of the specification:
`og:image` content trimmed if non-empty, otherwise the first `img`
element's non-empty `src` resolved against the page URL, otherwise the
empty string. -/
def imgByTiers (url : String) (soup : Soup) : String :=
  match ogVal soup "og:image" with
  | some s => if s ≠ "" then s else imgTierTwo url soup
  | none => imgTierTwo url soup

/-- First non-empty value of an ordered list of optional extractor
results, with a default: the evaluation rule the specification gives
for every fallback chain. -/
def firstNonEmptyD (dflt : String) : List (Option String) → String
  | [] => dflt
  | none :: rest => firstNonEmptyD dflt rest
  | some s :: rest => if s = "" then firstNonEmptyD dflt rest else s

/-- The ordered (selector, extractor) chain for the title. -/
def titleChain (soup : Soup) : List (Option String) :=
  [ogVal soup "og:title",
   soup.titleTag.bind (fun t => t.str.map pyStrip)]

/-- The ordered (selector, extractor) chain for the description. -/
def descChain (soup : Soup) : List (Option String) :=
  [ogVal soup "og:description",
   nameVal soup "description"]

/-- The ordered (selector, extractor) chain for the image: the second
tier matches only when the first `img` has a non-empty `src`, and
yields that `src` resolved against the page URL. -/
def imgChain (url : String) (soup : Soup) : List (Option String) :=
  [ogVal soup "og:image",
   (soup.imgs.head?.bind (fun im => im.src)).bind
     (fun s => if s = "" then none else some (urljoin url s))]

/-- Condition under which the image block raises: the `og:image` tier
produced nothing usable, the first `img` has a truthy `src`, and
`urljoin` raises on it. -/
def imgCrash (url : String) (soup : Soup) : Bool :=
  (match findMetaProp soup "og:image" with
   | some og => pyStrip (og.content.getD "") == ""
   | none => true) &&
  (match soup.imgs.head? with
   | some im =>
     match im.src with
     | some s => !(s == "") && (urljoinRaise url.data s.data).isSome
     | none => false
   | none => false)

/-- ASCII condition on the one document value that reaches `urljoin`:
the `src` of the first `img` element, when there is one. -/
def asciiSoup (soup : Soup) : Bool :=
  match soup.imgs.head? with
  | some im =>
    match im.src with
    | some s => asciiStr s
    | none => true
  | none => true

/-- Scheme component of a URL as `urlsplit` computes it with no
default scheme. -/
def schemeOfL (url : List Char) : List Char :=
  (urlsplitL url []).scheme

/-- A string counts as an absolute URL when `urlsplit` finds a scheme
in it. -/
def hasScheme (s : String) : Bool :=
  !(schemeOfL s.data).isEmpty

def isHttpUrl (u : String) : Prop :=
  (∃ r, u.data = "http://".data ++ r) ∨ (∃ r, u.data = "https://".data ++ r)

/-- Per-character escaping map of claim C9: double quote to `&quot;`,
single quote to `&#39;`, anything else unchanged. -/
def escapeCharSpec (c : Char) : List Char :=
  if c = dquote then "&quot;".data else if c = squote then "&#39;".data else [c]

/-- The per-character escaping map applied to a whole list. -/
def escapeListSpec : List Char → List Char
  | [] => []
  | c :: cs => escapeCharSpec c ++ escapeListSpec cs

/-! ## Characterization lemmas for `extract` -/

/-- The title block either raises the `AttributeError` or returns the
total `titleValue`. -/
theorem resolveTitle_eq (soup : Soup) :
    resolveTitle soup =
      if titleCrash soup then .error attrStripError else .ok (titleValue soup) := by
  unfold resolveTitle titleCrash titleValue ogVal attrStripError
  cases hm : findMetaProp soup "og:title" with
  | none =>
    cases ht : soup.titleTag with
    | none => simp [pyFalsy]
    | some t =>
      cases hs : t.str with
      | none => simp [pyFalsy, hs]
      | some s => simp [pyFalsy, hs]; try (split <;> simp)
  | some m =>
    by_cases hne : pyStrip (m.content.getD "") = ""
    · cases ht : soup.titleTag with
      | none => simp [pyFalsy, hne]
      | some t =>
        cases hs : t.str with
        | none => simp [pyFalsy, hne, hs]
        | some s => simp [pyFalsy, hne, hs]; try (split <;> simp)
    · simp [pyFalsy, hne]

/-- When the image block does not raise, it returns the three-tier
value of the specification. -/
theorem resolveImg_ok_of (url : String) (soup : Soup) (h : imgCrash url soup = false) :
    resolveImg url soup = .ok (imgByTiers url soup) := by
  unfold imgCrash at h
  unfold resolveImg imgByTiers imgTierTwo ogVal
  cases hm : findMetaProp soup "og:image" with
  | none =>
    cases hi : soup.imgs.head? with
    | none => simp
    | some im =>
      simp only [hi] at h
      cases hs : im.src with
      | none => simp [hs]
      | some s =>
        simp only [hs] at h
        by_cases h2 : s = ""
        · simp [hs, h2]
        · simp only [hm, h2, Bool.true_and] at h
          simp at h
          cases hj : urljoinRaise url.data s.data with
          | some e => rw [hj] at h; simp [h2] at h
          | none => simp [hs, h2, urljoinE, hj]
  | some m1 =>
    by_cases h1 : pyStrip (m1.content.getD "") = ""
    · cases hi : soup.imgs.head? with
      | none => simp [h1]
      | some im =>
        simp only [hi] at h
        cases hs : im.src with
        | none => simp [hs, h1]
        | some s =>
          simp only [hs] at h
          by_cases h2 : s = ""
          · simp [hs, h1, h2]
          · simp only [hm, h1, h2] at h
            simp at h
            cases hj : urljoinRaise url.data s.data with
            | some e => rw [hj] at h; simp [h2] at h
            | none => simp [hs, h1, h2, urljoinE, hj]
    · simp [h1]

/-- When the image block raises, it returns an error. -/
theorem resolveImg_err_of (url : String) (soup : Soup) (h : imgCrash url soup = true) :
    ∃ e, resolveImg url soup = .error e := by
  unfold imgCrash at h
  unfold resolveImg
  cases hm : findMetaProp soup "og:image" with
  | none =>
    cases hi : soup.imgs.head? with
    | none => simp [hi] at h
    | some im =>
      simp only [hi] at h
      cases hs : im.src with
      | none => simp [hs] at h
      | some s =>
        simp only [hs] at h
        simp at h
        cases hj : urljoinRaise url.data s.data with
        | some e => exact ⟨e, by simp [hs, h.2.1, urljoinE, hj]⟩
        | none => rw [hj] at h; simp at h
  | some m1 =>
    simp only [hm] at h
    cases hi : soup.imgs.head? with
    | none => simp [hi] at h
    | some im =>
      simp only [hi] at h
      cases hs : im.src with
      | none => simp [hs] at h
      | some s =>
        simp only [hs] at h
        simp at h
        obtain ⟨h1, h2, h3⟩ := h
        cases hj : urljoinRaise url.data s.data with
        | some e => exact ⟨e, by simp [hs, h1, h2, urljoinE, hj]⟩
        | none => rw [hj] at h3; simp at h3

/-- Inversion for a successful image block. -/
theorem resolveImg_ok_inv (url : String) (soup : Soup) (v : String)
    (h : resolveImg url soup = .ok v) :
    imgCrash url soup = false ∧ v = imgByTiers url soup := by
  cases hc : imgCrash url soup with
  | true =>
    obtain ⟨e, he⟩ := resolveImg_err_of url soup hc
    rw [he] at h
    cases h
  | false =>
    rw [resolveImg_ok_of url soup hc] at h
    injection h with h
    exact ⟨rfl, h.symm⟩

/-- Successful extraction, characterized. -/
theorem extract_resp_ok (url : String) (r : HttpResponse)
    (hst : raiseForStatus r.status r.reason url = none)
    (hcr : titleCrash r.body = false)
    (hic : imgCrash url r.body = false) :
    extract url (Fetch.resp r) =
      .ok ⟨titleValue r.body, resolveDesc r.body, imgByTiers url r.body⟩ := by
  simp [extract, extractRaw, hst, resolveTitle_eq, hcr, resolveImg_ok_of url r.body hic]

/-- Inversion: any successful extraction came from a response whose
status passed `raise_for_status`, whose title and image blocks did not
raise, and whose fields are the three resolved values. -/
theorem extract_ok_inv (url : String) (fetch : Fetch) (res : MetadataResult)
    (h : extract url fetch = .ok res) :
    ∃ r, fetch = Fetch.resp r ∧ raiseForStatus r.status r.reason url = none ∧
      titleCrash r.body = false ∧ imgCrash url r.body = false ∧
      res = ⟨titleValue r.body, resolveDesc r.body, imgByTiers url r.body⟩ := by
  cases fetch with
  | raised cls msg => simp [extract, extractRaw] at h
  | resp r =>
    cases hst : raiseForStatus r.status r.reason url with
    | some m => simp [extract, extractRaw, hst] at h
    | none =>
      cases hcr : titleCrash r.body with
      | true => simp [extract, extractRaw, hst, resolveTitle_eq, hcr] at h
      | false =>
        cases hic : imgCrash url r.body with
        | true =>
          obtain ⟨e, he⟩ := resolveImg_err_of url r.body hic
          simp [extract, extractRaw, hst, resolveTitle_eq, hcr, he] at h
        | false =>
          rw [extract_resp_ok url r hst hcr hic] at h
          injection h with h
          exact ⟨r, rfl, hst, hcr, hic, h.symm⟩

/-- The description block follows the three-tier rule of the
specification. -/
theorem resolveDesc_eq_tiers (soup : Soup) :
    resolveDesc soup = descByTiers soup := by
  unfold resolveDesc descByTiers descTierTwo ogVal nameVal
  cases hm : findMetaProp soup "og:description" with
  | none =>
    cases hn : findMetaName soup "description" with
    | none => simp [pyFalsy]
    | some m2 => simp [pyFalsy]
  | some m1 =>
    by_cases h1 : pyStrip (m1.content.getD "") = ""
    · cases hn : findMetaName soup "description" with
      | none => simp [pyFalsy, h1]
      | some m2 => simp [pyFalsy, h1]
    · simp [pyFalsy, h1]

/-- Under no-crash, the title equals the first non-empty value of its
chain. -/
theorem titleValue_eq_chain (soup : Soup) (h : titleCrash soup = false) :
    titleValue soup = firstNonEmptyD "Sin título" (titleChain soup) := by
  unfold titleCrash at h
  unfold titleValue titleChain
  cases hm : ogVal soup "og:title" with
  | none =>
    rw [hm] at h
    cases ht : soup.titleTag with
    | none => simp [pyFalsy, firstNonEmptyD]
    | some t =>
      rw [ht] at h
      cases hs : t.str with
      | none => simp [pyFalsy, hs] at h
      | some s =>
        simp [pyFalsy, hs, firstNonEmptyD]
  | some v =>
    rw [hm] at h
    by_cases hv : v = ""
    · subst hv
      cases ht : soup.titleTag with
      | none => simp [pyFalsy, firstNonEmptyD]
      | some t =>
        rw [ht] at h
        cases hs : t.str with
        | none => simp [pyFalsy, hs] at h
        | some s =>
          simp [pyFalsy, hs, firstNonEmptyD]
    · simp [pyFalsy, hv, firstNonEmptyD]

/-- The description tiers follow the first-non-empty chain rule. -/
theorem descByTiers_eq_chain (soup : Soup) :
    descByTiers soup = firstNonEmptyD "Sin descripción" (descChain soup) := by
  unfold descByTiers descTierTwo descChain
  cases hm : ogVal soup "og:description" with
  | none =>
    cases hn : nameVal soup "description" with
    | none => simp [firstNonEmptyD]
    | some s2 => by_cases h2 : s2 = "" <;> simp [firstNonEmptyD, h2]
  | some s1 =>
    by_cases h1 : s1 = ""
    · cases hn : nameVal soup "description" with
      | none => simp [firstNonEmptyD, h1]
      | some s2 => by_cases h2 : s2 = "" <;> simp [firstNonEmptyD, h1, h2]
    · simp [firstNonEmptyD, h1]

/-- The image tiers follow the first-non-empty chain rule. -/
theorem imgByTiers_eq_chain (url : String) (soup : Soup) :
    imgByTiers url soup = firstNonEmptyD "" (imgChain url soup) := by
  unfold imgByTiers imgTierTwo imgChain
  cases hm : ogVal soup "og:image" with
  | none =>
    cases hi : soup.imgs.head? with
    | none => simp [firstNonEmptyD]
    | some im =>
      cases hs : im.src with
      | none => simp [firstNonEmptyD, hs]
      | some s =>
        by_cases h2 : s = ""
        · simp [firstNonEmptyD, hs, h2]
        · by_cases hv : urljoin url s = "" <;> simp [firstNonEmptyD, hs, h2, hv]
  | some s1 =>
    by_cases h1 : s1 = ""
    · cases hi : soup.imgs.head? with
      | none => simp [firstNonEmptyD, h1]
      | some im =>
        cases hs : im.src with
        | none => simp [firstNonEmptyD, hs, h1]
        | some s =>
          by_cases h2 : s = ""
          · simp [firstNonEmptyD, hs, h1, h2]
          · by_cases hv : urljoin url s = "" <;> simp [firstNonEmptyD, hs, h1, h2, hv]
    · simp [firstNonEmptyD, h1]

/-- Status check characterization: `raise_for_status` is silent exactly
outside the 400-599 range. -/
theorem raiseForStatus_none_iff (status : Nat) (reason url : String) :
    raiseForStatus status reason url = none ↔ ¬(400 ≤ status ∧ status < 600) := by
  unfold raiseForStatus
  by_cases h1 : 400 ≤ status ∧ status < 500
  · simp [h1]
    omega
  · by_cases h2 : 500 ≤ status ∧ status < 600
    · simp [h1, h2]
      omega
    · simp [h1, h2]
      omega

/-! ## Scheme analysis of `urljoin`

The following lemmas show that when the base URL starts with `http://`
or `https://`, the result of `urljoin` always carries a scheme, which
is the sense in which the resolved image URL is absolute. -/
theorem urlsplitQ_scheme (s n u f : List Char) : (urlsplitQ s n u f).scheme = s := by
  unfold urlsplitQ
  split <;> rfl

theorem urlsplitF_scheme (s n rest : List Char) : (urlsplitF s n rest).scheme = s := by
  unfold urlsplitF
  split <;> rw [urlsplitQ_scheme]

theorem urlsplitN_scheme (s rest : List Char) : (urlsplitN s rest).scheme = s := by
  unfold urlsplitN
  split <;> rw [urlsplitF_scheme]

theorem cleanUrl_http (rest : List Char) :
    cleanUrl ('h' :: 't' :: 't' :: 'p' :: ':' :: rest) =
      'h' :: 't' :: 't' :: 'p' :: ':' :: rest.filter (fun x => !isUnsafeUrlByte x) := by
  simp [cleanUrl, List.dropWhile_cons, List.filter_cons,
    (show isC0OrSpace 'h' = false from rfl),
    (show isUnsafeUrlByte 'h' = false from rfl),
    (show isUnsafeUrlByte 't' = false from rfl),
    (show isUnsafeUrlByte 'p' = false from rfl),
    (show isUnsafeUrlByte ':' = false from rfl)]

theorem takeScheme_http (rest : List Char) :
    takeScheme ('h' :: 't' :: 't' :: 'p' :: ':' :: rest) = some ("http".data, rest) := by
  simp [takeScheme, takeSchemeAux,
    (show ('h').isAlpha = true from rfl),
    (show isSchemeChar 'h' = true from rfl),
    (show isSchemeChar 't' = true from rfl),
    (show isSchemeChar 'p' = true from rfl)]

theorem urlsplitL_scheme_http (rest dflt : List Char) :
    (urlsplitL ('h' :: 't' :: 't' :: 'p' :: ':' :: rest) dflt).scheme = "http".data := by
  simp only [urlsplitL, cleanUrl_http, takeScheme_http, urlsplitN_scheme]
  rfl

theorem takeSchemeAux_fst_ne_aux (cs : List Char) : ∀ (acc : List Char) (p : List Char × List Char),
    takeSchemeAux acc cs = some p → acc ≠ [] → p.1 ≠ [] := by
  induction cs with
  | nil => intro acc p h _; simp [takeSchemeAux] at h
  | cons c cs ih =>
    intro acc p h hacc
    unfold takeSchemeAux at h
    by_cases hc : c = ':'
    · rw [if_pos hc] at h
      rw [if_neg (by simpa using hacc)] at h
      injection h with h
      subst h
      simpa using hacc
    · rw [if_neg hc] at h
      by_cases hsc : isSchemeChar c = true
      · rw [if_pos hsc] at h
        exact ih (c :: acc) p h (by simp)
      · rw [if_neg hsc] at h
        cases h

theorem takeScheme_fst_ne (cs : List Char) (p : List Char × List Char)
    (h : takeScheme cs = some p) : p.1 ≠ [] := by
  cases cs with
  | nil => simp [takeScheme] at h
  | cons c rest =>
    simp only [takeScheme] at h
    by_cases ha : c.isAlpha = true
    · rw [if_pos ha] at h
      unfold takeSchemeAux at h
      by_cases hc : c = ':'
      · rw [if_pos hc] at h
        simp at h
      · rw [if_neg hc] at h
        by_cases hsc : isSchemeChar c = true
        · rw [if_pos hsc] at h
          exact takeSchemeAux_fst_ne_aux rest [c] p h (by simp)
        · rw [if_neg hsc] at h
          cases h
    · rw [if_neg ha] at h
      cases h

theorem cleanUrl_https (rest : List Char) :
    cleanUrl ('h' :: 't' :: 't' :: 'p' :: 's' :: ':' :: rest) =
      'h' :: 't' :: 't' :: 'p' :: 's' :: ':' :: rest.filter (fun x => !isUnsafeUrlByte x) := by
  simp [cleanUrl, List.dropWhile_cons, List.filter_cons,
    (show isC0OrSpace 'h' = false from rfl),
    (show isUnsafeUrlByte 'h' = false from rfl),
    (show isUnsafeUrlByte 't' = false from rfl),
    (show isUnsafeUrlByte 'p' = false from rfl),
    (show isUnsafeUrlByte 's' = false from rfl),
    (show isUnsafeUrlByte ':' = false from rfl)]

theorem takeScheme_https (rest : List Char) :
    takeScheme ('h' :: 't' :: 't' :: 'p' :: 's' :: ':' :: rest) = some ("https".data, rest) := by
  simp [takeScheme, takeSchemeAux,
    (show ('h').isAlpha = true from rfl),
    (show isSchemeChar 'h' = true from rfl),
    (show isSchemeChar 't' = true from rfl),
    (show isSchemeChar 'p' = true from rfl),
    (show isSchemeChar 's' = true from rfl)]

theorem urlsplitL_scheme_https (rest dflt : List Char) :
    (urlsplitL ('h' :: 't' :: 't' :: 'p' :: 's' :: ':' :: rest) dflt).scheme = "https".data := by
  simp only [urlsplitL, cleanUrl_https, takeScheme_https, urlsplitN_scheme]
  rfl

theorem urlparseL_scheme (url dflt : List Char) :
    (urlparseL url dflt).scheme = (urlsplitL url dflt).scheme := by
  simp only [urlparseL]
  split <;> rfl

theorem urlsplitL_scheme_eq (url dflt : List Char) :
    (urlsplitL url dflt).scheme =
      (match takeScheme (cleanUrl url) with
       | some p => p.1.map Char.toLower
       | none => cleanScheme dflt) := by
  cases h : takeScheme (cleanUrl url) <;> simp [urlsplitL, h, urlsplitN_scheme]

theorem shape_app (s A y : List Char) (h : ∃ R, A = s ++ ':' :: R) :
    ∃ R, A ++ y = s ++ ':' :: R := by
  obtain ⟨R, hR⟩ := h
  exact ⟨R ++ y, by rw [hR]; simp⟩

theorem urlunsplitL_shape (scheme netloc path query frag : List Char)
    (h : scheme.isEmpty = false) :
    ∃ R, urlunsplitL scheme netloc path query frag = scheme ++ ':' :: R := by
  unfold urlunsplitL
  rw [h]
  simp only [Bool.not_false, if_true]
  split <;> split <;> split <;>
    (repeat (first | exact ⟨_, rfl⟩ | apply shape_app))

theorem schemeOfL_colon (S R : List Char) (hS : S = "http".data ∨ S = "https".data) :
    schemeOfL (S ++ ':' :: R) = S := by
  rcases hS with h | h <;> subst h
  · exact urlsplitL_scheme_http R []
  · exact urlsplitL_scheme_https R []

theorem urljoinSame_exits (b u : ParseResult) :
    ∃ n p pr q f, urljoinSame b u = urlunparseL u.scheme n p pr q f := by
  unfold urljoinSame
  split
  · exact ⟨_, _, _, _, _, rfl⟩
  · dsimp only
    split
    · exact ⟨_, _, _, _, _, rfl⟩
    · exact ⟨_, _, _, _, _, rfl⟩

theorem schemeOfL_urlunparse_ne (S n p pr q f : List Char)
    (hSne : S.isEmpty = false)
    (hcol : ∀ R, schemeOfL (S ++ ':' :: R) = S) :
    (schemeOfL (urlunparseL S n p pr q f)).isEmpty = false := by
  unfold urlunparseL
  obtain ⟨R, hR⟩ := urlunsplitL_shape S n (if !pr.isEmpty then p ++ ';' :: pr else p) q f hSne
  rw [hR, hcol R]
  exact hSne

theorem urljoinL_keeps_scheme_core (S base url : List Char)
    (hb : (urlsplitL base []).scheme = S)
    (hrel : memScheme S usesRelative = true)
    (hclean : cleanScheme S = S)
    (hSne : S.isEmpty = false)
    (hcol : ∀ R, schemeOfL (S ++ ':' :: R) = S) :
    (schemeOfL (urljoinL base url)).isEmpty = false := by
  have hbne : base.isEmpty = false := by
    cases base with
    | nil =>
      exfalso
      rw [show (urlsplitL ([] : List Char) []).scheme = [] from rfl] at hb
      rw [← hb] at hSne
      simp [List.isEmpty] at hSne
    | cons c cs => rfl
  have hbscheme : (urlparseL base []).scheme = S := by
    rw [urlparseL_scheme]
    exact hb
  by_cases hue : url.isEmpty = true
  · have hres : urljoinL base url = base := by
      unfold urljoinL
      rw [hbne, hue]
      simp
    rw [hres]
    show (urlsplitL base []).scheme.isEmpty = false
    rw [hb]
    exact hSne
  · have hue2 : url.isEmpty = false := by
      cases h : url.isEmpty
      · rfl
      · exact absurd h hue
    have hred : urljoinL base url =
        (if (urlparseL url (urlparseL base []).scheme).scheme != (urlparseL base []).scheme ||
            !memScheme (urlparseL url (urlparseL base []).scheme).scheme usesRelative then url
         else urljoinSame (urlparseL base []) (urlparseL url (urlparseL base []).scheme)) := by
      unfold urljoinL
      rw [hbne, hue2]
      simp
    rw [hred, hbscheme]
    have huscheme : (urlparseL url S).scheme =
        (match takeScheme (cleanUrl url) with
         | some p => p.1.map Char.toLower
         | none => cleanScheme S) := by
      rw [urlparseL_scheme, urlsplitL_scheme_eq]
    cases hts : takeScheme (cleanUrl url) with
    | none =>
      have hu : (urlparseL url S).scheme = S := by
        rw [huscheme, hts, hclean]
      rw [if_neg (by simp [hu, hrel])]
      obtain ⟨n, p, pr, q, f, hexit⟩ :=
        urljoinSame_exits (urlparseL base []) (urlparseL url S)
      rw [hexit, hu]
      exact schemeOfL_urlunparse_ne S n p pr q f hSne hcol
    | some pp =>
      by_cases hcond : ((urlparseL url S).scheme != S ||
          !memScheme (urlparseL url S).scheme usesRelative) = true
      · rw [if_pos hcond]
        have hsch : schemeOfL url = pp.1.map Char.toLower := by
          unfold schemeOfL
          rw [urlsplitL_scheme_eq, hts]
        rw [hsch]
        have hne := takeScheme_fst_ne (cleanUrl url) pp hts
        cases hp : pp.1 with
        | nil => exact absurd hp hne
        | cons c cs => rfl
      · have hcond2 : ((urlparseL url S).scheme != S ||
            !memScheme (urlparseL url S).scheme usesRelative) = false :=
          Bool.eq_false_iff.mpr hcond
        have hboth := Bool.or_eq_false_iff.mp hcond2
        have hbeq : ((urlparseL url S).scheme == S) = true := by
          simpa [bne] using hboth.1
        have hu : (urlparseL url S).scheme = S := eq_of_beq hbeq
        rw [if_neg hcond]
        obtain ⟨n, p, pr, q, f, hexit⟩ :=
          urljoinSame_exits (urlparseL base []) (urlparseL url S)
        rw [hexit, hu]
        exact schemeOfL_urlunparse_ne S n p pr q f hSne hcol

theorem urljoin_hasScheme (base url : String) (hb : isHttpUrl base) :
    hasScheme (urljoin base url) = true := by
  unfold hasScheme urljoin
  show (!(schemeOfL (urljoinL base.data url.data)).isEmpty) = true
  rcases hb with ⟨r, hr⟩ | ⟨r, hr⟩
  · have h := urljoinL_keeps_scheme_core "http".data base.data url.data
      (by rw [hr]; exact urlsplitL_scheme_http ('/' :: '/' :: r) [])
      rfl rfl rfl (fun R => schemeOfL_colon _ R (Or.inl rfl))
    rw [h]
    rfl
  · have h := urljoinL_keeps_scheme_core "https".data base.data url.data
      (by rw [hr]; exact urlsplitL_scheme_https ('/' :: '/' :: r) [])
      rfl rfl rfl (fun R => schemeOfL_colon _ R (Or.inr rfl))
    rw [h]
    rfl

/-! ## Claim theorems -/

/-- Claim C1, counterexample.  A document whose `og:title` tag has
whitespace-only content (trimmed content empty) but which also has a
`<title>Real Title</title>` element resolves the title to the title
element, not to the trimmed `og:title` content: the resolved title is
"Real Title" while the trimmed tag content is the empty string. -/
theorem c1_counterexample :
    extract "https://example.com/"
        (Fetch.resp ⟨200, "OK",
          ⟨[⟨some "og:title", none, some "  "⟩], some ⟨some "Real Title"⟩, []⟩⟩) =
      .ok ⟨"Real Title", "Sin descripción", ""⟩ ∧
    pyStrip "  " = "" ∧ ("Real Title" : String) ≠ "" := by
  refine ⟨by rfl, by rfl, by decide⟩

/-- Claim C1, amended: for every fetched document whose `og:title` meta
tag has non-empty trimmed content, and whose image block does not raise
inside `urljoin`, the resolved title is that trimmed content,
regardless of the presence or content of a `<title>` element (the
document body is otherwise arbitrary). -/
theorem c1_theorem (url : String) (r : HttpResponse) (m : MetaTag)
    (hst : raiseForStatus r.status r.reason url = none)
    (hm : findMetaProp r.body "og:title" = some m)
    (hne : pyStrip (m.content.getD "") ≠ "")
    (hic : imgCrash url r.body = false) :
    extract url (Fetch.resp r) =
      .ok ⟨pyStrip (m.content.getD ""), resolveDesc r.body, imgByTiers url r.body⟩ := by
  have hcr : titleCrash r.body = false := by
    unfold titleCrash ogVal
    rw [hm]
    simp [pyFalsy, hne]
  rw [extract_resp_ok url r hst hcr hic]
  unfold titleValue ogVal
  rw [hm]
  simp [pyFalsy, hne]

/-- Claim C1, witness of the amended theorem at a concrete document. -/
theorem c1_witness :
    extract "https://example.com/"
        (Fetch.resp ⟨200, "OK",
          ⟨[⟨some "og:title", none, some " Hola "⟩], some ⟨some "Doc"⟩, []⟩⟩) =
      .ok ⟨"Hola", "Sin descripción", ""⟩ := by
  rw [ c1_theorem "https://example.com/"
    ⟨200, "OK", ⟨[⟨some "og:title", none, some " Hola "⟩], some ⟨some "Doc"⟩, []⟩⟩
    ⟨some "og:title", none, some " Hola "⟩ (by rfl) (by rfl) (by decide) (by rfl)]
  rfl

/-- Claim C2, counterexample, in three parts.  First, a successfully
fetched document (status 200) with no usable `og:title` and an empty
`<title></title>` element (bs4 `.string` is `None`) makes `extract`
raise, so extraction can fail for reasons other than the fetch.
Second, a 304 response, which is neither 2xx nor an error for
`raise_for_status`, yields the fully default-filled result instead of
failing.  Third, a successfully fetched document whose first `img` has
`src="//["` makes `extract` raise as well, because `urljoin` raises
`ValueError` on the unbalanced bracket in the netloc. -/
theorem c2_counterexample :
    (∃ e, extract "https://example.com/"
        (Fetch.resp ⟨200, "OK", ⟨[], some ⟨none⟩, []⟩⟩) = .error e) ∧
    extract "https://example.com/" (Fetch.resp ⟨304, "Not Modified", ⟨[], none, []⟩⟩) =
      .ok ⟨"Sin título", "Sin descripción", ""⟩ ∧
    extract "https://example.com/"
        (Fetch.resp ⟨200, "OK", ⟨[], some ⟨some "T"⟩, [⟨some "//["⟩]⟩⟩) =
      .error ⟨"Exception", "Error extrayendo metadata: Invalid IPv6 URL"⟩ := by
  exact ⟨⟨⟨"Exception",
    "Error extrayendo metadata: 'NoneType' object has no attribute 'strip'"⟩, by rfl⟩,
    by rfl, by rfl⟩

/-- Claim C2, amended: for ASCII inputs (the page URL and the first
image source all ASCII, so that the unmodeled NFKC netloc check of
`_checknetloc` never fires), `extract` fails exactly when the network
request raises, when the response status is 400-599 (the only statuses
`raise_for_status` rejects), when the title fallback consults a `title`
element whose bs4 string is unavailable, or when the image fallback
passes the first image source to `urljoin` and `urljoin` raises a
`ValueError`; every other fetched document produces a complete result,
and a raised or rejected fetch never produces a result. -/
theorem c2_theorem (url : String) (fetch : Fetch)
    (hascii : asciiStr url = true ∧ ∀ r, fetch = Fetch.resp r → asciiSoup r.body = true) :
    (∃ e, extract url fetch = .error e) ↔
      (∃ cls msg, fetch = Fetch.raised cls msg) ∨
      (∃ r, fetch = Fetch.resp r ∧ 400 ≤ r.status ∧ r.status < 600) ∨
      (∃ r, fetch = Fetch.resp r ∧ titleCrash r.body = true) ∨
      (∃ r, fetch = Fetch.resp r ∧ imgCrash url r.body = true) := by
  cases fetch with
  | raised cls msg =>
    constructor
    · intro _
      exact Or.inl ⟨cls, msg, rfl⟩
    · intro _
      exact ⟨⟨"Exception", "Error extrayendo metadata: " ++ msg⟩, rfl⟩
  | resp r =>
    constructor
    · rintro ⟨e, he⟩
      cases hst : raiseForStatus r.status r.reason url with
      | some m =>
        refine Or.inr (Or.inl ⟨r, rfl, ?_⟩)
        by_contra hc
        have h0 := (raiseForStatus_none_iff r.status r.reason url).mpr hc
        rw [h0] at hst
        cases hst
      | none =>
        cases hcr : titleCrash r.body with
        | true => exact Or.inr (Or.inr (Or.inl ⟨r, rfl, hcr⟩))
        | false =>
          cases hic : imgCrash url r.body with
          | true => exact Or.inr (Or.inr (Or.inr ⟨r, rfl, hic⟩))
          | false => rw [extract_resp_ok url r hst hcr hic] at he; cases he
    · rintro (⟨cls, msg, hf⟩ | ⟨r2, hr2, hrange⟩ | ⟨r2, hr2, hcr⟩ | ⟨r2, hr2, hic⟩)
      · cases hf
      · injection hr2 with hr2
        subst hr2
        have hsome : ¬raiseForStatus r.status r.reason url = none := by
          rw [raiseForStatus_none_iff]
          simp [hrange]
        cases hst : raiseForStatus r.status r.reason url with
        | none => exact absurd hst hsome
        | some m =>
          exact ⟨⟨"Exception", "Error extrayendo metadata: " ++ m⟩, by
            simp [extract, extractRaw, hst]⟩
      · injection hr2 with hr2
        subst hr2
        cases hst : raiseForStatus r.status r.reason url with
        | some m =>
          exact ⟨⟨"Exception", "Error extrayendo metadata: " ++ m⟩, by
            simp [extract, extractRaw, hst]⟩
        | none =>
          exact ⟨⟨"Exception", "Error extrayendo metadata: " ++ attrStripError.msg⟩, by
            simp [extract, extractRaw, hst, resolveTitle_eq, hcr]⟩
      · injection hr2 with hr2
        subst hr2
        cases hst : raiseForStatus r.status r.reason url with
        | some m =>
          exact ⟨⟨"Exception", "Error extrayendo metadata: " ++ m⟩, by
            simp [extract, extractRaw, hst]⟩
        | none =>
          cases hcr : titleCrash r.body with
          | true =>
            exact ⟨⟨"Exception", "Error extrayendo metadata: " ++ attrStripError.msg⟩, by
              simp [extract, extractRaw, hst, resolveTitle_eq, hcr]⟩
          | false =>
            obtain ⟨e, he⟩ := resolveImg_err_of url r.body hic
            exact ⟨⟨"Exception", "Error extrayendo metadata: " ++ e.msg⟩, by
              simp [extract, extractRaw, hst, resolveTitle_eq, hcr, he]⟩

/-- Claim C2, witness: the amended characterization applied to a
concrete raised fetch, discharging the ASCII hypothesis. -/
theorem c2_witness :
    ∃ e, extract "https://example.com/" (Fetch.raised "Timeout" "timed out") = .error e :=
  ( c2_theorem "https://example.com/" (Fetch.raised "Timeout" "timed out")
    ⟨by decide, fun r h => by cases h⟩).mpr
    (Or.inl ⟨"Timeout", "timed out", rfl⟩)

/-- Claim C3, counterexample.  The claim reads tier one as applying
whenever the `og:image` tag is present; but for a document whose
`og:image` tag has empty content and whose first `img` has
`src="b.jpg"`, fetched from `https://example.com/a/`, the extractor
does not return the trimmed tag content (the empty string): it falls
through and resolves the `img` source to an absolute URL. -/
theorem c3_counterexample :
    extract "https://example.com/a/"
        (Fetch.resp ⟨200, "OK",
          ⟨[⟨some "og:image", none, some ""⟩], some ⟨some "T"⟩, [⟨some "b.jpg"⟩]⟩⟩) =
      .ok ⟨"T", "Sin descripción", "https://example.com/a/b.jpg"⟩ ∧
    ("https://example.com/a/b.jpg" : String) ≠ pyStrip "" := by
  exact ⟨by rfl, by decide⟩

/-- Claim C3, amended: for every fetched document the image field
follows the three-tier rule with non-empty guards: the trimmed
`og:image` content when present and non-empty; otherwise the first
`img` element's `src`, when present and non-empty, resolved against the
page URL with `urljoin`; otherwise the empty string. -/
theorem c3_theorem (url : String) (r : HttpResponse) (res : MetadataResult)
    (h : extract url (Fetch.resp r) = .ok res) :
    res.img = imgByTiers url r.body := by
  obtain ⟨r2, hr2, -, -, -, hres⟩ := extract_ok_inv url (Fetch.resp r) res h
  injection hr2 with hr2
  subst hr2
  rw [hres]

/-- Claim C3, witness: the amended theorem applied to the example of
the claim, a page at `https://example.com/a/` whose first image has
`src="b.jpg"`; the resolved image URL is `https://example.com/a/b.jpg`. -/
theorem c3_witness :
    (⟨"T", "Sin descripción", "https://example.com/a/b.jpg"⟩ : MetadataResult).img =
      imgByTiers "https://example.com/a/" ⟨[], some ⟨some "T"⟩, [⟨some "b.jpg"⟩]⟩ ∧
    imgByTiers "https://example.com/a/" ⟨[], some ⟨some "T"⟩, [⟨some "b.jpg"⟩]⟩ =
      "https://example.com/a/b.jpg" := by
  refine ⟨ c3_theorem "https://example.com/a/" ⟨200, "OK", ⟨[], some ⟨some "T"⟩, [⟨some "b.jpg"⟩]⟩⟩
    ⟨"T", "Sin descripción", "https://example.com/a/b.jpg"⟩ (by rfl), by rfl⟩

/-- Claim C5, counterexample.  Both failure modes raise the same
exception class: a raised network request and an internal extraction
fault (the `None.strip()` case) both surface as the single generic
`Exception` with a wrapped message, so the caller cannot tell the two
classes apart by the kind of the raised error. -/
theorem c5_counterexample :
    extract "https://example.com/" (Fetch.raised "ConnectionError" "connection refused") =
      .error ⟨"Exception", "Error extrayendo metadata: connection refused"⟩ ∧
    extract "https://example.com/" (Fetch.resp ⟨200, "OK", ⟨[], some ⟨none⟩, []⟩⟩) =
      .error ⟨"Exception",
        "Error extrayendo metadata: 'NoneType' object has no attribute 'strip'"⟩ := by
  exact ⟨by rfl, by rfl⟩

/-- Claim C5, amended: every failure of `extract`, whatever its cause,
is raised as the single generic class `Exception` with a message
obtained by prepending the wrapping text to the underlying message;
there is no type-level distinction between fetch and parse failures. -/
theorem c5_theorem (url : String) (fetch : Fetch) (e : PyError)
    (h : extract url fetch = .error e) :
    e.cls = "Exception" ∧ ∃ m, e.msg = "Error extrayendo metadata: " ++ m := by
  unfold extract at h
  cases hr : extractRaw url fetch with
  | ok r => rw [hr] at h; cases h
  | error e0 =>
    rw [hr] at h
    injection h with h
    subst h
    exact ⟨rfl, e0.msg, rfl⟩

/-- Claim C5, witness of the amended theorem at a concrete raised
fetch. -/
theorem c5_witness :
    (⟨"Exception", "Error extrayendo metadata: timed out"⟩ : PyError).cls = "Exception" ∧
    ∃ m, (⟨"Exception", "Error extrayendo metadata: timed out"⟩ : PyError).msg =
      "Error extrayendo metadata: " ++ m :=
  c5_theorem "https://example.com/" (Fetch.raised "Timeout" "timed out") _ (by rfl)

/-- Claim C6: each field of a successful extraction equals the first
non-empty value of its ordered (selector, extractor) chain, with the
field default when no tier matches; in particular a present but
empty-valued higher tier is skipped in favor of the next tier. -/
theorem c6_theorem (url : String) (r : HttpResponse) (res : MetadataResult)
    (h : extract url (Fetch.resp r) = .ok res) :
    res.title = firstNonEmptyD "Sin título" (titleChain r.body) ∧
    res.desc = firstNonEmptyD "Sin descripción" (descChain r.body) ∧
    res.img = firstNonEmptyD "" (imgChain url r.body) := by
  obtain ⟨r2, hr2, -, hcr, -, hres⟩ := extract_ok_inv url (Fetch.resp r) res h
  injection hr2 with hr2
  subst hr2
  subst hres
  refine ⟨titleValue_eq_chain r.body hcr, ?_, ?_⟩
  · rw [show (⟨titleValue r.body, resolveDesc r.body, imgByTiers url r.body⟩ :
      MetadataResult).desc = resolveDesc r.body from rfl]
    rw [resolveDesc_eq_tiers, descByTiers_eq_chain]
  · rw [show (⟨titleValue r.body, resolveDesc r.body, imgByTiers url r.body⟩ :
      MetadataResult).img = imgByTiers url r.body from rfl]
    rw [imgByTiers_eq_chain]

/-- Claim C6, witness: the chain characterization applied to a document
with an empty `og:title`, an empty `og:description`, an empty
`og:image` and a whitespace `img src`; every first tier is skipped. -/
theorem c6_witness :
    ("Doc" : String) = firstNonEmptyD "Sin título"
      (titleChain ⟨[⟨some "og:title", none, some ""⟩, ⟨some "og:description", none, some " "⟩,
        ⟨some "og:image", none, some ""⟩], some ⟨some "Doc"⟩, [⟨some ""⟩]⟩) ∧
    ("Sin descripción" : String) = firstNonEmptyD "Sin descripción"
      (descChain ⟨[⟨some "og:title", none, some ""⟩, ⟨some "og:description", none, some " "⟩,
        ⟨some "og:image", none, some ""⟩], some ⟨some "Doc"⟩, [⟨some ""⟩]⟩) ∧
    ("" : String) = firstNonEmptyD ""
      (imgChain "https://example.com/"
        ⟨[⟨some "og:title", none, some ""⟩, ⟨some "og:description", none, some " "⟩,
          ⟨some "og:image", none, some ""⟩], some ⟨some "Doc"⟩, [⟨some ""⟩]⟩) := by
  exact c6_theorem "https://example.com/"
    ⟨200, "OK", ⟨[⟨some "og:title", none, some ""⟩, ⟨some "og:description", none, some " "⟩,
      ⟨some "og:image", none, some ""⟩], some ⟨some "Doc"⟩, [⟨some ""⟩]⟩⟩
    ⟨"Doc", "Sin descripción", ""⟩ (by rfl)

/-- Claim C7: the description of every successful extraction follows
the three-tier rule exactly as the claim states it, with non-empty
guards on the first two tiers. -/
theorem c7_theorem (url : String) (r : HttpResponse) (res : MetadataResult)
    (h : extract url (Fetch.resp r) = .ok res) :
    res.desc = descByTiers r.body := by
  obtain ⟨r2, hr2, -, -, -, hres⟩ := extract_ok_inv url (Fetch.resp r) res h
  injection hr2 with hr2
  subst hr2
  rw [hres]
  exact resolveDesc_eq_tiers r.body

/-- Claim C7, witness at a document whose `og:description` is
whitespace-only and whose `name="description"` meta holds the value. -/
theorem c7_witness :
    (⟨"Sin título", "World", ""⟩ : MetadataResult).desc =
      descByTiers ⟨[⟨some "og:description", none, some "  "⟩,
        ⟨none, some "description", some " World "⟩], none, []⟩ ∧
    descByTiers ⟨[⟨some "og:description", none, some "  "⟩,
      ⟨none, some "description", some " World "⟩], none, []⟩ = "World" := by
  refine ⟨ c7_theorem "https://example.com/"
    ⟨200, "OK", ⟨[⟨some "og:description", none, some "  "⟩,
      ⟨none, some "description", some " World "⟩], none, []⟩⟩
    ⟨"Sin título", "World", ""⟩ (by rfl), by rfl⟩

/-- Replacement distributes over append. -/
theorem replaceAllChar_append (c : Char) (rep a b : List Char) :
    replaceAllChar c rep (a ++ b) = replaceAllChar c rep a ++ replaceAllChar c rep b := by
  induction a with
  | nil => rfl
  | cons x xs ih => simp [replaceAllChar, ih]

/-- The two sequential replace calls perform exactly the per-character
escaping map: every double quote becomes `&quot;`, every single quote
becomes `&#39;`, and nothing else changes. -/
theorem replaceQuotes_spec (l : List Char) :
    replaceAllChar squote "&#39;".data (replaceAllChar dquote "&quot;".data l) =
      escapeListSpec l := by
  induction l with
  | nil => rfl
  | cons c cs ih =>
    rw [replaceAllChar, replaceAllChar_append, ih]
    by_cases h1 : c = dquote
    · subst h1
      rw [if_pos rfl]
      rw [show replaceAllChar squote "&#39;".data "&quot;".data = "&quot;".data from by decide]
      rw [escapeListSpec, show escapeCharSpec dquote = "&quot;".data from by decide]
    · rw [if_neg h1, escapeListSpec]
      by_cases h2 : c = squote
      · subst h2
        rw [show replaceAllChar squote "&#39;".data [squote] = "&#39;".data from by decide]
        rw [show escapeCharSpec squote = "&#39;".data from by decide]
      · rw [show replaceAllChar squote "&#39;".data [c] =
          (if c = squote then "&#39;".data else [c]) ++ [] from rfl]
        rw [if_neg h2]
        rw [escapeCharSpec, if_neg h1, if_neg h2]
        rfl

/-- The escaped output contains no double and no single quote. -/
theorem escapeListSpec_no_quotes (l : List Char) :
    (escapeListSpec l).all (fun c => !(c == dquote) && !(c == squote)) = true := by
  induction l with
  | nil => rfl
  | cons c cs ih =>
    rw [escapeListSpec, List.all_append, ih, Bool.and_true]
    by_cases h1 : c = dquote
    · subst h1
      rw [show escapeCharSpec dquote = "&quot;".data from by decide]
      decide
    · by_cases h2 : c = squote
      · subst h2
        rw [show escapeCharSpec squote = "&#39;".data from by decide]
        decide
      · rw [escapeCharSpec, if_neg h1, if_neg h2]
        simp [h1, h2]

/-- Claim C9: `generate_html` renders the template on quote-escaped
title and description; the escaping replaces every occurrence of a
double or single quote in either input by its HTML entity (and leaves
every other character unchanged), so the values embedded into the
attribute and text contexts of the generated document are quote-free. -/
theorem c9_theorem (visibleUrl redirectUrl title desc img : String) :
    generateHtml visibleUrl redirectUrl title desc img =
      htmlCore visibleUrl redirectUrl (escapeQuotes title) (escapeQuotes desc) img ∧
    escapeQuotes title = ⟨escapeListSpec title.data⟩ ∧
    escapeQuotes desc = ⟨escapeListSpec desc.data⟩ ∧
    (escapeQuotes title).data.all (fun c => !(c == dquote) && !(c == squote)) = true ∧
    (escapeQuotes desc).data.all (fun c => !(c == dquote) && !(c == squote)) = true := by
  refine ⟨rfl, ?_, ?_, ?_, ?_⟩
  · unfold escapeQuotes
    rw [replaceQuotes_spec]
  · unfold escapeQuotes
    rw [replaceQuotes_spec]
  · unfold escapeQuotes
    rw [replaceQuotes_spec]
    exact escapeListSpec_no_quotes title.data
  · unfold escapeQuotes
    rw [replaceQuotes_spec]
    exact escapeListSpec_no_quotes desc.data

/-- Claim C8, counterexample.  The caller of `git_push_to_github`
receives only the boolean return value, and that value is `False` both
in the no-op world (all commands succeed but `git status --porcelain`
prints nothing) and in a failing world (there are staged changes but
`git push` exits nonzero): the no-op outcome is not distinguishable
from failure in what the function reports to its caller. -/
theorem c8_counterexample :
    (gitPushToGithub "Actualizar link preview" ⟨0, 0, "", 0, 0⟩).1 = false ∧
    (gitPushToGithub "Actualizar link preview" ⟨0, 0, "M index.html", 0, 1⟩).1 = false := by
  exact ⟨by rfl, by rfl⟩

/-- Claim C8, amended: the function returns `True` exactly when every
command succeeds and there are staged changes; the no-op case returns
`False` after printing the no-changes warning, and every failing
command also makes it return `False`, after printing the error help
text - so no-op and failure are told apart only in the printed output,
not in the value reported to the caller. -/
theorem c8_theorem (msg : String) (w : GitWorld) :
    ((gitPushToGithub msg w).1 = true ↔
      w.addExit = 0 ∧ w.statusExit = 0 ∧ pyStrip w.statusOut ≠ "" ∧
      w.commitExit = 0 ∧ w.pushExit = 0) ∧
    (w.addExit = 0 → w.statusExit = 0 → pyStrip w.statusOut = "" →
      gitPushToGithub msg w =
        (false, ["\n📤 Subiendo a GitHub...", "⚠️  No hay cambios para subir"])) ∧
    ((w.addExit ≠ 0 ∨ w.statusExit ≠ 0 ∨ w.commitExit ≠ 0 ∨ w.pushExit ≠ 0) →
      (gitPushToGithub msg w).1 = false) ∧
    (w.addExit = 0 → w.statusExit = 0 → pyStrip w.statusOut ≠ "" →
      (w.commitExit ≠ 0 ∨ w.pushExit ≠ 0) →
      ∃ e, (gitPushToGithub msg w).2 =
        "\n📤 Subiendo a GitHub..." :: gitErrorPrints e) := by
  refine ⟨?_, ?_, ?_, ?_⟩
  · by_cases ha : w.addExit = 0
    · by_cases hs : w.statusExit = 0
      · by_cases ho : pyStrip w.statusOut = ""
        · simp [gitPushToGithub, ha, hs, ho]
        · by_cases hc : w.commitExit = 0
          · by_cases hp : w.pushExit = 0
            · simp [gitPushToGithub, ha, hs, ho, hc, hp]
            · simp [gitPushToGithub, ha, hs, ho, hc, hp]
          · simp [gitPushToGithub, ha, hs, ho, hc]
      · simp [gitPushToGithub, ha, hs]
    · simp [gitPushToGithub, ha]
  · intro ha hs ho
    simp [gitPushToGithub, ha, hs, ho]
  · intro hbad
    by_cases ha : w.addExit = 0
    · by_cases hs : w.statusExit = 0
      · by_cases ho : pyStrip w.statusOut = ""
        · simp [gitPushToGithub, ha, hs, ho]
        · by_cases hc : w.commitExit = 0
          · by_cases hp : w.pushExit = 0
            · rcases hbad with h | h | h | h <;> simp_all
            · simp [gitPushToGithub, ha, hs, ho, hc, hp]
          · simp [gitPushToGithub, ha, hs, ho, hc]
      · simp [gitPushToGithub, ha, hs]
    · simp [gitPushToGithub, ha]
  · intro ha hs ho hbad
    by_cases hc : w.commitExit = 0
    · by_cases hp : w.pushExit = 0
      · rcases hbad with h | h <;> simp_all
      · exact ⟨cpeMsg gitPushRepr w.pushExit, by simp [gitPushToGithub, ha, hs, ho, hc, hp]⟩
    · exact ⟨cpeMsg (gitCommitRepr msg) w.commitExit, by
        simp [gitPushToGithub, ha, hs, ho, hc]⟩

/-- Claim C8, witness: the amended characterization applied to the
all-success world with staged changes, where the function returns
`True`. -/
theorem c8_witness :
    (gitPushToGithub "Actualizar link preview" ⟨0, 0, "M index.html", 0, 0⟩).1 = true :=
  ( c8_theorem "Actualizar link preview" ⟨0, 0, "M index.html", 0, 0⟩).1.mpr
    ⟨rfl, rfl, by decide, rfl, rfl⟩

/-- Claim C10: `load_config` is total over every modeled filesystem
state - any exception inside the `try` block yields `None` rather than
propagating; the absent, unreadable and malformed states all yield
`None`; and a parsed value is returned exactly when the file exists and
`json.load` succeeds on it. -/
theorem c10_theorem (fs : ConfigFS) :
    ((∃ e, loadConfigAttempt fs = .error e) → loadConfig fs = none) ∧
    (loadConfig fs = none ∨ ∃ v, loadConfig fs = some v ∧ fs = ConfigFS.hasJson v) ∧
    (fs = ConfigFS.absent → loadConfig fs = none) ∧
    (∀ m, fs = ConfigFS.readError m → loadConfig fs = none) ∧
    (∀ m, fs = ConfigFS.badJson m → loadConfig fs = none) ∧
    (∀ v, loadConfig fs = some v → fs = ConfigFS.hasJson v) := by
  cases fs <;> simp [loadConfig, loadConfigAttempt]

/-- Claim C10, witness: the characterization applied to a concrete
malformed-file state. -/
theorem c10_witness :
    loadConfig (ConfigFS.badJson "Expecting value: line 1 column 1 (char 0)") = none :=
  (c10_theorem (ConfigFS.badJson "Expecting value: line 1 column 1 (char 0)")).2.2.2.2.1
    "Expecting value: line 1 column 1 (char 0)" rfl

/-- A fallback chain never produces the empty string when its default
is non-empty. -/
theorem firstNonEmptyD_ne_empty (dflt : String) (hd : dflt ≠ "") (l : List (Option String)) :
    firstNonEmptyD dflt l ≠ "" := by
  induction l with
  | nil => exact hd
  | cons x rest ih =>
    cases x with
    | none => exact ih
    | some s =>
      by_cases hs : s = ""
      · simp only [firstNonEmptyD, if_pos hs]
        exact ih
      · simp only [firstNonEmptyD, if_neg hs]
        exact hs

/-- The second image tier yields the empty string or a URL with a
scheme, provided the page URL is an http or https URL. -/
theorem imgTierTwo_empty_or_scheme (url : String) (soup : Soup) (hurl : isHttpUrl url) :
    imgTierTwo url soup = "" ∨ hasScheme (imgTierTwo url soup) = true := by
  unfold imgTierTwo
  cases soup.imgs.head? with
  | none => exact Or.inl rfl
  | some im =>
    show (match im.src with
          | some s => if s ≠ "" then urljoin url s else ""
          | none => "") = "" ∨
      hasScheme (match im.src with
          | some s => if s ≠ "" then urljoin url s else ""
          | none => "") = true
    cases im.src with
    | none => exact Or.inl rfl
    | some s =>
      show (if s ≠ "" then urljoin url s else "") = "" ∨
        hasScheme (if s ≠ "" then urljoin url s else "") = true
      by_cases h0 : s ≠ ""
      · rw [if_pos h0]
        exact Or.inr (urljoin_hasScheme url s hurl)
      · rw [if_neg h0]
        exact Or.inl rfl

/-- Unfolding equation for `imgByTiers` when no `og:image` tag exists. -/
theorem imgByTiers_og_none (url : String) (soup : Soup)
    (hm : ogVal soup "og:image" = none) :
    imgByTiers url soup = imgTierTwo url soup := by
  unfold imgByTiers
  rw [hm]

/-- Unfolding equation for `imgByTiers` when an `og:image` tag exists. -/
theorem imgByTiers_og_some (url : String) (soup : Soup) (v : String)
    (hm : ogVal soup "og:image" = some v) :
    imgByTiers url soup = if v ≠ "" then v else imgTierTwo url soup := by
  unfold imgByTiers
  rw [hm]

/-- Claim C4, counterexample.  A document whose `og:image` tag holds a
relative path yields that path verbatim: the image field of the result
is "b.jpg", which is neither empty nor an absolute URL (no scheme), so
the invariant as claimed fails. -/
theorem c4_counterexample :
    extract "https://example.com/page"
        (Fetch.resp ⟨200, "OK",
          ⟨[⟨some "og:image", none, some "b.jpg"⟩], some ⟨some "T"⟩, []⟩⟩) =
      .ok ⟨"T", "Sin descripción", "b.jpg"⟩ ∧
    ("b.jpg" : String) ≠ "" ∧ hasScheme "b.jpg" = false := by
  exact ⟨by rfl, by decide, by rfl⟩

/-- Claim C4, amended: for every successful extraction from a page
whose URL starts with `http://` or `https://`, the title and the
description are non-empty; the image is either the empty string, or the
trimmed `og:image` content taken verbatim (not resolved, possibly
relative), or - when it came from the first `img` element - an absolute
URL in the sense that it carries a URL scheme. -/
theorem c4_theorem (url : String) (r : HttpResponse) (res : MetadataResult)
    (hurl : isHttpUrl url)
    (h : extract url (Fetch.resp r) = .ok res) :
    res.title ≠ "" ∧ res.desc ≠ "" ∧
    (res.img = "" ∨
      (∃ m, findMetaProp r.body "og:image" = some m ∧
        res.img = pyStrip (m.content.getD "")) ∨
      hasScheme res.img = true) := by
  obtain ⟨r2, hr2, -, hcr, -, hres⟩ := extract_ok_inv url (Fetch.resp r) res h
  injection hr2 with hr2
  subst hr2
  subst hres
  refine ⟨?_, ?_, ?_⟩
  · show titleValue r.body ≠ ""
    rw [titleValue_eq_chain r.body hcr]
    exact firstNonEmptyD_ne_empty _ (by decide) _
  · show resolveDesc r.body ≠ ""
    rw [resolveDesc_eq_tiers, descByTiers_eq_chain]
    exact firstNonEmptyD_ne_empty _ (by decide) _
  · show imgByTiers url r.body = "" ∨
      (∃ m, findMetaProp r.body "og:image" = some m ∧
        imgByTiers url r.body = pyStrip (m.content.getD "")) ∨
      hasScheme (imgByTiers url r.body) = true
    cases hfind : findMetaProp r.body "og:image" with
    | none =>
      have hm : ogVal r.body "og:image" = none := by
        unfold ogVal
        rw [hfind]
        rfl
      rw [imgByTiers_og_none url r.body hm]
      rcases imgTierTwo_empty_or_scheme url r.body hurl with h2 | h2
      · exact Or.inl h2
      · exact Or.inr (Or.inr h2)
    | some m =>
      have hm : ogVal r.body "og:image" = some (pyStrip (m.content.getD "")) := by
        unfold ogVal
        rw [hfind]
        rfl
      rw [imgByTiers_og_some url r.body _ hm]
      by_cases hv : pyStrip (m.content.getD "") ≠ ""
      · rw [if_pos hv]
        exact Or.inr (Or.inl ⟨m, rfl, rfl⟩)
      · rw [if_neg hv]
        rcases imgTierTwo_empty_or_scheme url r.body hurl with h2 | h2
        · exact Or.inl h2
        · exact Or.inr (Or.inr h2)

/-- Claim C4, witness: the amended invariant at a concrete page whose
first image resolves against the page URL. -/
theorem c4_witness :
    (⟨"T", "Sin descripción", "https://example.com/a/b.jpg"⟩ : MetadataResult).title ≠ "" ∧
    (⟨"T", "Sin descripción", "https://example.com/a/b.jpg"⟩ : MetadataResult).desc ≠ "" ∧
    ((⟨"T", "Sin descripción", "https://example.com/a/b.jpg"⟩ : MetadataResult).img = "" ∨
      (∃ m, findMetaProp ⟨[], some ⟨some "T"⟩, [⟨some "b.jpg"⟩]⟩ "og:image" = some m ∧
        (⟨"T", "Sin descripción", "https://example.com/a/b.jpg"⟩ : MetadataResult).img =
          pyStrip (m.content.getD "")) ∨
      hasScheme (⟨"T", "Sin descripción", "https://example.com/a/b.jpg"⟩ : MetadataResult).img =
        true) :=
  c4_theorem "https://example.com/a/"
    ⟨200, "OK", ⟨[], some ⟨some "T"⟩, [⟨some "b.jpg"⟩]⟩⟩
    ⟨"T", "Sin descripción", "https://example.com/a/b.jpg"⟩
    (Or.inr ⟨"example.com/a/".data, by rfl⟩) (by rfl)

end Generador
